import Mathlib

/-!
Verification of the field-discovery and form-synchronization engine of the
DYMO Label Web Editor (src/js/app.js).

The embedding translates the source functions `parseObjectTypes`,
`generateForm`, the synchronization loops of `updatePreview` and
`printLabels`, `loadLabel` and `clearForm` into Lean, together with the
pieces of application state (`state.label`, `state.objectTypes`,
`state.initialValues`, the generated form controls) they read and write.
External collaborators (the DOM parser, the DYMO rendering framework) are
passed in as function parameters, mirroring the opaque capability contract
the source uses.
-/

namespace DymoEditor

/-- XML element/text tree: the document shape produced by
`DOMParser.parseFromString` that `parseObjectTypes` walks. -/
inductive XNode where
  | elem (tag : String) (children : List XNode)
  | text (s : String)

mutual

/-- `node.textContent`: concatenation of all text descendants in document
order. -/
def XNode.textContent : XNode → String
  | .text s => s
  | .elem _ cs => textContentList cs

def textContentList : List XNode → String
  | [] => ""
  | n :: ns => n.textContent ++ textContentList ns

end

/-- `node.tagName` (text nodes, which never occur in element lists, get ""). -/
def XNode.tag : XNode → String
  | .elem t _ => t
  | .text _ => ""

mutual

/-- All elements of the subtree rooted at a node, in document order
(preorder), the node itself included: a document-level
`getElementsByTagName("*")`. -/
def XNode.allElements : XNode → List XNode
  | .text _ => []
  | .elem t cs => .elem t cs :: allElementsList cs

def allElementsList : List XNode → List XNode
  | [] => []
  | n :: ns => n.allElements ++ allElementsList ns

end

/-- First descendant element (the node itself excluded) with the given tag,
in document order: `node.getElementsByTagName(t)[0]`. -/
def XNode.firstDescendantNamed (n : XNode) (t : String) : Option XNode :=
  match n with
  | .text _ => none
  | .elem _ cs => (allElementsList cs).find? (fun m => m.tag == t)

/-- JS property assignment `types[k] = v` on an object used as a string map. -/
def jsSet (m : String → Option String) (k v : String) : String → Option String :=
  fun x => if x = k then some v else m x

/-- Loop body of `parseObjectTypes` (src/js/app.js 223-231): if the tag name
ends with "Object", look for the first descendant named "Name"; when found,
record `types[nameText] = tagName`, overwriting any earlier entry. -/
def objectTypeStep (types : String → Option String) (node : XNode) : String → Option String :=
  if node.tag.endsWith "Object" then
    match node.firstDescendantNamed "Name" with
    | some nameNode => jsSet types nameNode.textContent node.tag
    | none => types
  else
    types

/-- The element-traversal part of `parseObjectTypes`, applied to an already
parsed document: fold `objectTypeStep` over every element in document order,
starting from the empty map. -/
def extractTypes (doc : XNode) : String → Option String :=
  doc.allElements.foldl objectTypeStep (fun _ => none)

/-- `parseObjectTypes` (src/js/app.js 214-237). The browser XML parse is the
`parse` parameter; `none` models a parse failure, in which case the body
leaves the `types` object empty (the source catches every exception and the
DOM parser reports failure through an error document holding no element whose
tag ends with "Object"). The function is total: no error escapes to the
caller. -/
def parseObjectTypes (parse : String → Option XNode) (s : String) : String → Option String :=
  match parse s with
  | some doc => extractTypes doc
  | none => fun _ => none

/-- The field-definition view of the claim: an element is a field definition
exactly when its tag ends with "Object" and it has a descendant named "Name";
the definition records the pair (name text, tag name). -/
def nodeDef (node : XNode) : Option (String × String) :=
  if node.tag.endsWith "Object" then
    (node.firstDescendantNamed "Name").map (fun nn => (nn.textContent, node.tag))
  else
    none

/-- The field definitions of a document, in document order. -/
def fieldDefs (doc : XNode) : List (String × String) :=
  doc.allElements.filterMap nodeDef

theorem objectTypeStep_eq (types : String → Option String) (n : XNode) :
    objectTypeStep types n =
      match nodeDef n with
      | some p => jsSet types p.1 p.2
      | none => types := by
  unfold objectTypeStep nodeDef
  cases hOb : n.tag.endsWith "Object"
  · simp
  · cases hfd : n.firstDescendantNamed "Name" <;> simp

theorem foldl_objectTypeStep (ns : List XNode) (init : String → Option String) (k : String) :
    (ns.foldl objectTypeStep init) k =
      match (ns.filterMap nodeDef).reverse.find? (fun p => p.1 == k) with
      | some p => some p.2
      | none => init k := by
  induction ns generalizing init with
  | nil => simp
  | cons n ns ih =>
    rw [List.foldl_cons, ih, objectTypeStep_eq]
    cases hd : nodeDef n with
    | none => simp [List.filterMap_cons, hd]
    | some p =>
      simp only [List.filterMap_cons, hd, List.reverse_cons, List.find?_append]
      cases hfind : (ns.filterMap nodeDef).reverse.find? (fun q => q.1 == k) with
      | some q => simp
      | none =>
        simp only [Option.none_or, List.find?_cons, List.find?_nil]
        unfold jsSet
        cases hpk : (p.1 == k : Bool) with
        | true =>
          have hk : k = p.1 := (beq_iff_eq.mp hpk).symm
          simp [hpk, hk]
        | false =>
          have hk : ¬ k = p.1 := fun h => by simp [h] at hpk
          simp [hpk, hk]

/-- C3: for every document, the mapping computed by the type-extraction
traversal sends each name `k` to the tag name of the LAST field-defining
element for `k` in document order (an element counts as field-defining
exactly when its tag ends with "Object" and it has a descendant element
named "Name"); later definitions overwrite earlier ones and no duplicate
error is raised. -/
theorem extractTypes_last_write_wins (doc : XNode) (k : String) :
    extractTypes doc k =
      ((fieldDefs doc).reverse.find? (fun p => p.1 == k)).map Prod.snd := by
  unfold extractTypes fieldDefs
  rw [foldl_objectTypeStep]
  cases hfind : (doc.allElements.filterMap nodeDef).reverse.find? (fun p => p.1 == k) <;> simp

/-- C4: `parseObjectTypes` is a total function (the source wraps the body in
a catch-all, so no exception reaches the caller), and on a parse failure it
returns the empty mapping. -/
theorem parseObjectTypes_empty_on_failure (parse : String → Option XNode) (s : String)
    (h : parse s = none) : parseObjectTypes parse s = fun _ => none := by
  unfold parseObjectTypes
  rw [h]

theorem parseObjectTypes_empty_on_failure_witness :
    parseObjectTypes (fun _ => none) "<Bad<" = fun _ => none :=
  parseObjectTypes_empty_on_failure (fun _ => none) "<Bad<" rfl

/-- The Template Document as reachable through the collaborator accessors
`getObjectText` / `setObjectText`: an association list from object name to
current text. -/
structure Doc where
  fields : List (String × String)
deriving DecidableEq, Repr

/-- `state.label.getObjectText(name)`; `none` models the accessor raising for
an unknown name (every caller catches that exception). -/
def Doc.getObjectText (d : Doc) (name : String) : Option String :=
  (d.fields.find? (fun p => p.1 == name)).map Prod.snd

/-- `state.label.setObjectText(name, v)`; for an unknown name the collaborator
raises and every caller catches, so the document is unchanged. -/
def Doc.setObjectText (d : Doc) (name v : String) : Doc :=
  ⟨d.fields.map (fun p => if p.1 == name then (p.1, v) else p)⟩

/-- A generated form control: a checkbox for image-like fields
(`data-is-image`), a textarea otherwise (src/js/app.js 265-287). -/
inductive Control where
  | checkbox (name : String) (checked : Bool)
  | textarea (name : String) (value : String)
deriving DecidableEq, Repr

def Control.name : Control → String
  | .checkbox n _ => n
  | .textarea n _ => n

def Control.isToggle : Control → Bool
  | .checkbox _ _ => true
  | .textarea _ _ => false

/-- JS `String.prototype.startsWith`, on the character sequence. -/
def jsStartsWith (s pre : String) : Bool :=
  pre.toList.isPrefixOf s.toList

/-- JS `String.prototype.toUpperCase`, character by character. -/
def jsToUpper (n : String) : String :=
  ⟨n.toList.map Char.toUpper⟩

/-- The filter of `generateForm` (src/js/app.js 247):
`!name.toUpperCase().startsWith('IGNORE')`. -/
def keptName (n : String) : Bool :=
  !(jsStartsWith (jsToUpper n) "IGNORE")

/-- The comparator `(a, b) => a.localeCompare(b)` (src/js/app.js 248) read as
a relation: `a` collates no later than `b`, modelled as the lexicographic
order on the character sequences. -/
def localeLe (a b : String) : Prop :=
  a.toList ≤ b.toList

instance localeLeDecidable : DecidableRel localeLe :=
  fun a b => inferInstanceAs (Decidable (a.toList ≤ b.toList))

instance localeLeTotal : IsTotal String localeLe :=
  ⟨fun a b => le_total a.toList b.toList⟩

instance localeLeTrans : IsTrans String localeLe :=
  ⟨fun _ _ _ hab hbc => le_trans hab hbc⟩

theorem localeLe_iff (a b : String) : localeLe a b ↔ a ≤ b :=
  String.le_iff_toList_le.symm

/-- `editableNames` (src/js/app.js 246-248): filter the ignored names out,
then sort ascending by the `localeCompare` comparator. -/
def editableNames (names : List String) : List String :=
  List.insertionSort localeLe (names.filter keptName)

/-- `type === 'ImageObject' || type === 'GraphicObject'` (src/js/app.js 252). -/
def isImageType (t : String) : Bool :=
  t == "ImageObject" || t == "GraphicObject"

/-- Control construction for one editable name (src/js/app.js 250-287):
look the kind up (defaulting to "Unknown"), read the current text through the
collaborator (defaulting to "" when the accessor raises or returns a falsy
value), then render a checkbox for image kinds — checked exactly when the
current value is non-empty — and a textarea holding the current value for
every other kind. -/
def mkControl (types : String → Option String) (doc : Doc) (name : String) : Control :=
  let type := (types name).getD "Unknown"
  let currentValue := (doc.getObjectText name).getD ""
  if isImageType type then
    Control.checkbox name (decide (0 < currentValue.length))
  else
    Control.textarea name currentValue

/-- `generateForm` (src/js/app.js 242-296): one control per editable name, in
order. The document is only read (`getObjectText`); no value is written. -/
def generateForm (types : String → Option String) (doc : Doc) (names : List String) : List Control :=
  (editableNames names).map (mkControl types doc)

/-- Spec-side reading of the filter: the name begins, case-insensitively,
with "IGNORE". -/
def ignoredCI (n : String) : Prop :=
  "IGNORE".toList <+: n.toList.map Char.toUpper

theorem keptName_iff (n : String) : keptName n = true ↔ ¬ ignoredCI n := by
  unfold keptName jsStartsWith jsToUpper ignoredCI
  simp [String.toList, ← List.isPrefixOf_iff_prefix]

theorem control_name_mkControl (types : String → Option String) (doc : Doc) (name : String) :
    (mkControl types doc name).name = name := by
  simp only [mkControl]
  split <;> rfl

theorem generateForm_names_eq (types : String → Option String) (doc : Doc) (names : List String) :
    (generateForm types doc names).map Control.name = editableNames names := by
  unfold generateForm
  rw [List.map_map]
  have h : Control.name ∘ mkControl types doc = id := by
    funext n
    exact control_name_mkControl types doc n
  rw [h, List.map_id]

/-- C2: for every set of field names, the rendered form shows exactly the
names that do not begin (case-insensitively) with "IGNORE", in ascending
lexical order, and the spec example renders as ["Address", "Name"]. An
excluded name is a name with no control (the membership fails); `generateForm`
only reads the document through `getObjectText`, so no stored value changes. -/
theorem generateForm_filter_sort (types : String → Option String) (doc : Doc) (names : List String) :
    (∀ n, n ∈ (generateForm types doc names).map Control.name ↔ (n ∈ names ∧ ¬ ignoredCI n))
    ∧ List.Sorted (· ≤ ·) ((generateForm types doc names).map Control.name)
    ∧ (generateForm (fun _ => some "TextObject")
        ⟨[("Name", "N"), ("ignoreId", "I"), ("Address", "A")]⟩
        ["Name", "ignoreId", "Address"]).map Control.name = ["Address", "Name"] := by
  refine ⟨fun n => ?_, ?_, ?_⟩
  · rw [generateForm_names_eq]
    unfold editableNames
    rw [List.mem_insertionSort, List.mem_filter, keptName_iff]
  · rw [generateForm_names_eq]
    exact (List.sorted_insertionSort localeLe _).imp fun h => (localeLe_iff _ _).mp h
  · decide

theorem isImageType_getD_iff (o : Option String) :
    isImageType (o.getD "Unknown") = true ↔ (o = some "ImageObject" ∨ o = some "GraphicObject") := by
  cases o <;> simp [isImageType]

theorem mkControl_isToggle (types : String → Option String) (doc : Doc) (n : String) :
    (mkControl types doc n).isToggle = isImageType ((types n).getD "Unknown") := by
  simp only [mkControl]
  split
  next h => simp [Control.isToggle, h]
  next h => simp [Control.isToggle, Bool.not_eq_true _ |>.mp h]

/-- C8: every editable name receives a control (the rendered name list is the
whole editable list: classification drops nothing), and the control is a
toggle exactly when the recorded kind is ImageObject or GraphicObject;
every other kind — an unknown or unrecorded kind included — yields a
textarea. -/
theorem generateForm_control_shape (types : String → Option String) (doc : Doc) (names : List String) :
    ((generateForm types doc names).map Control.name = editableNames names)
    ∧ (∀ c ∈ generateForm types doc names,
        (c.isToggle = true ↔
          (types c.name = some "ImageObject" ∨ types c.name = some "GraphicObject"))) := by
  refine ⟨generateForm_names_eq types doc names, ?_⟩
  intro c hc
  unfold generateForm at hc
  obtain ⟨n, hn, rfl⟩ := List.mem_map.mp hc
  rw [control_name_mkControl, mkControl_isToggle, isImageType_getD_iff]

theorem find?_map_set (fs : List (String × String)) (name v : String)
    (h : (fs.find? (fun p => p.1 == name)).isSome = true) :
    ((fs.map (fun p => if p.1 == name then (p.1, v) else p)).find?
      (fun p => p.1 == name)).map Prod.snd = some v := by
  induction fs with
  | nil => simp at h
  | cons p fs ih =>
    by_cases hp : (p.1 == name) = true
    · rw [List.map_cons, if_pos hp, List.find?_cons_of_pos _ (by simpa using hp)]
      simp
    · rw [List.map_cons, if_neg hp, List.find?_cons_of_neg _ (by simpa using hp)]
      rw [List.find?_cons_of_neg _ (by simpa using hp)] at h
      exact ih h

theorem getObjectText_setObjectText_self (d : Doc) (name v : String)
    (h : (d.getObjectText name).isSome = true) :
    (d.setObjectText name v).getObjectText name = some v := by
  obtain ⟨fs⟩ := d
  simpa [Doc.getObjectText, Doc.setObjectText] using
    find?_map_set fs name v (by simpa [Doc.getObjectText] using h)

/-- Per-control body of the synchronization loop shared by `updatePreview`
(src/js/app.js 317-336) and `printLabels` (377-391): a textarea writes its
literal text into the document; a checked image toggle restores the original
snapshot only when that snapshot is a non-empty (truthy) string, and is
otherwise a no-op; an unchecked toggle writes the empty string. -/
def syncControl (initialValues : String → Option String) (doc : Doc) : Control → Doc
  | .checkbox name checked =>
    if checked then
      match initialValues name with
      | some v => if v = "" then doc else doc.setObjectText name v
      | none => doc
    else
      doc.setObjectText name ""
  | .textarea name value => doc.setObjectText name value

/-- A full synchronization pass over every bound control, in form order. -/
def syncAll (initialValues : String → Option String) (controls : List Control) (doc : Doc) : Doc :=
  controls.foldl (syncControl initialValues) doc

/-- C1: synchronization of a bound image toggle. Checked with a non-empty
original snapshot: the field takes the snapshot value. Checked with an empty
or absent snapshot: the document is left exactly as it was. Unchecked, from
any prior document state: the field takes the empty string. The hypothesis
says the field exists in the document (the accessor does not raise). -/
theorem syncControl_toggle (init : String → Option String) (doc : Doc) (name : String)
    (hmem : (doc.getObjectText name).isSome = true) :
    (∀ v, init name = some v → v ≠ "" →
      (syncControl init doc (Control.checkbox name true)).getObjectText name = some v)
    ∧ ((init name = none ∨ init name = some "") →
      syncControl init doc (Control.checkbox name true) = doc)
    ∧ (syncControl init doc (Control.checkbox name false)).getObjectText name = some "" := by
  refine ⟨?_, ?_, ?_⟩
  · intro v hv hne
    simp only [syncControl, if_pos rfl, hv]
    rw [if_neg hne]
    exact getObjectText_setObjectText_self doc name v hmem
  · rintro (h | h) <;> simp [syncControl, h]
  · simp only [syncControl, Bool.false_eq_true, if_neg]
    exact getObjectText_setObjectText_self doc name "" hmem

theorem syncControl_toggle_witness :
    ((syncControl (fun k => if k = "Img" then some "ABC123" else none) ⟨[("Img", "X")]⟩
        (Control.checkbox "Img" true)).getObjectText "Img" = some "ABC123")
    ∧ ((syncControl (fun k => if k = "Img" then some "ABC123" else none) ⟨[("Img", "X")]⟩
        (Control.checkbox "Img" false)).getObjectText "Img" = some "") :=
  ⟨(syncControl_toggle (fun k => if k = "Img" then some "ABC123" else none) ⟨[("Img", "X")]⟩
      "Img" (by decide)).1 "ABC123" (by decide) (by decide),
   (syncControl_toggle (fun k => if k = "Img" then some "ABC123" else none) ⟨[("Img", "X")]⟩
      "Img" (by decide)).2.2⟩

/-- The application state the claims touch: the mutable globals of
src/js/app.js 7-15, the generated form (children of `elements.labelForm`),
the card visibilities, the preview image source, and whether a debounced
synchronization is still pending. -/
structure AppState where
  label : Option Doc
  labelXml : Option String
  objectNames : List String
  objectTypes : String → Option String
  initialValues : String → Option String
  controls : List Control
  formVisible : Bool
  noFieldsVisible : Bool
  previewVisible : Bool
  printVisible : Bool
  fileErrorVisible : Bool
  previewSrc : String
  pendingDebounce : Bool

/-- Outcome of a print request: which user-visible alert blocked it, or the
collaborator print invocation with the document it observes, the target
printer and the copy count. -/
inductive PrintResult where
  | noLabel
  | noPrinter
  | badQuantity
  | printed (doc : Doc) (printer : String) (copies : Int)
deriving DecidableEq, Repr

/-- JS `parseInt(s, 10)`: skip leading whitespace, read an optional sign,
then the longest leading run of decimal digits; NaN (here `none`) when that
run is empty. -/
def jsParseInt (s : String) : Option Int :=
  let cs := s.toList.dropWhile Char.isWhitespace
  let signed : Int × List Char :=
    match cs with
    | '-' :: t => (-1, t)
    | '+' :: t => (1, t)
    | _ => (1, cs)
  let ds := signed.2.takeWhile Char.isDigit
  if ds.isEmpty then none
  else some (signed.1 * (ds.foldl (fun a c => a * 10 + (c.toNat - '0'.toNat)) 0 : Nat))

/-- `updatePreview` (src/js/app.js 311-349): with no loaded label it returns
at once; otherwise it writes every bound control's value into the document
(one `syncControl` per control, in form order) and only then invokes the
rendering collaborator `render` on the synchronized document. It never
consults the debounce timer. A render error shows an empty preview; the
synchronization has happened either way. -/
def updatePreview (render : Doc → Except String String) (st : AppState) : AppState :=
  match st.label with
  | none => st
  | some doc =>
    let d := syncAll st.initialValues st.controls doc
    match render d with
    | .ok png =>
      { st with label := some d
                previewSrc := "data:image/png;base64," ++ png
                previewVisible := true }
    | .error _ =>
      { st with label := some d
                previewSrc := ""
                previewVisible := true }

/-- `printLabels` (src/js/app.js 354-428): validate — label loaded, printer
identity non-empty, `parseInt` quantity at least 1 — where each failure
alerts and returns before any side effect; on validated input synchronize
every bound control into the document, then invoke the collaborator print
with the synchronized document, the target printer and the copy count. -/
def printLabels (st : AppState) (printerName quantityStr : String) : AppState × PrintResult :=
  match st.label with
  | none => (st, .noLabel)
  | some doc =>
    if printerName = "" then (st, .noPrinter)
    else
      match jsParseInt quantityStr with
      | none => (st, .badQuantity)
      | some q =>
        if q < 1 then (st, .badQuantity)
        else
          let d := syncAll st.initialValues st.controls doc
          ({ st with label := some d }, .printed d printerName q)

/-- `clearForm` (src/js/app.js 433-446): drop the document handle, the raw
markup and the name list, hide every card, hide the file error and empty the
preview image. The kind map, the snapshot map and the children of the form
container are not touched by the source, so they stay. -/
def clearForm (st : AppState) : AppState :=
  { st with label := none
            labelXml := none
            objectNames := []
            formVisible := false
            noFieldsVisible := false
            previewVisible := false
            printVisible := false
            fileErrorVisible := false
            previewSrc := "" }

/-- `loadLabel` (src/js/app.js 166-209). `openLabelXml` is the collaborator
open call paired with `getObjectNames` (`none` models the ParseError path, on
which the file error shows and the prior state stays). On success the
document handle, raw markup, name list, extracted kind map and the
original-value snapshots are installed; when the name list is non-empty
`generateForm` rebuilds the controls from scratch, while an empty name list
hides the form but leaves the prior controls in the DOM; either way
`updatePreview` then runs, its synchronization pass included. -/
def loadLabel (openLabelXml : String → Option (Doc × List String))
    (parse : String → Option XNode) (render : Doc → Except String String)
    (xml : String) (st : AppState) : AppState :=
  match openLabelXml xml with
  | none => { st with fileErrorVisible := true }
  | some (doc, names) =>
    let types := parseObjectTypes parse xml
    let inits : String → Option String := names.foldl (fun acc name =>
      match doc.getObjectText name with
      | some v => fun k => if k = name then some v else acc k
      | none => acc) (fun _ => none)
    let st1 := { st with label := some doc
                         labelXml := some xml
                         objectNames := names
                         objectTypes := types
                         initialValues := inits }
    if names.isEmpty then
      updatePreview render
        { st1 with noFieldsVisible := true
                   formVisible := false
                   previewVisible := true
                   printVisible := true }
    else
      updatePreview render
        { st1 with controls := generateForm types doc names
                   formVisible := true
                   noFieldsVisible := false
                   printVisible := true }

theorem updatePreview_controls (render : Doc → Except String String) (s : AppState) :
    (updatePreview render s).controls = s.controls := by
  unfold updatePreview
  cases hl : s.label with
  | none => rfl
  | some doc =>
    cases hr : render (syncAll s.initialValues s.controls doc) <;> simp [hr]

/-- C5: before the collaborator acts, a full synchronization pass over every
bound control has run. With a loaded document, `updatePreview` hands the
rendering collaborator exactly `syncAll st.initialValues st.controls doc`
(stored back as the label) — whatever the pending debounce flag says — and a
validated `printLabels` hands the print collaborator that same synchronized
document, so neither collaborator can observe a value an unflushed control
still holds. -/
theorem sync_pass_before_action (render : Doc → Except String String) (st : AppState)
    (doc : Doc) (h : st.label = some doc) :
    (∀ b : Bool, (updatePreview render { st with pendingDebounce := b }).label
        = some (syncAll st.initialValues st.controls doc))
    ∧ (∀ printer q n, printer ≠ "" → jsParseInt q = some n → 1 ≤ n →
        (printLabels st printer q).2
          = PrintResult.printed (syncAll st.initialValues st.controls doc) printer n) := by
  constructor
  · intro b
    unfold updatePreview
    simp only [h]
    cases hr : render (syncAll st.initialValues st.controls doc) <;> simp [hr]
  · intro printer q n hp hq hn
    unfold printLabels
    simp only [h, hq]
    rw [if_neg hp, if_neg (by omega : ¬ n < 1)]

def sampleDoc : Doc := ⟨[("Name", "OLD")]⟩

def sampleState : AppState :=
  { label := some sampleDoc
    labelXml := some "<label/>"
    objectNames := ["Name"]
    objectTypes := fun _ => none
    initialValues := fun _ => none
    controls := [Control.textarea "Name" "NEW"]
    formVisible := true
    noFieldsVisible := false
    previewVisible := true
    printVisible := true
    fileErrorVisible := false
    previewSrc := ""
    pendingDebounce := true }

theorem sync_pass_before_action_witness :
    (updatePreview (fun _ => Except.ok "png") { sampleState with pendingDebounce := true }).label
      = some (syncAll sampleState.initialValues sampleState.controls sampleDoc) :=
  (sync_pass_before_action (fun _ => Except.ok "png") sampleState sampleDoc rfl).1 true

/-- C6: print validation. When the quantity does not parse to an integer at
least 1, or the printer identity is empty, the request is blocked: the state
comes back unchanged and the collaborator print is never invoked. Only on
validated input with a loaded label is the collaborator print invoked, and
then with the requested copy count and target identity. -/
theorem printLabels_validation (st : AppState) (printer q : String) :
    ((printer = "" ∨ jsParseInt q = none ∨ (∃ n, jsParseInt q = some n ∧ n < 1)) →
      (printLabels st printer q).1 = st
      ∧ ∀ d p c, (printLabels st printer q).2 ≠ PrintResult.printed d p c)
    ∧ (∀ doc n, st.label = some doc → printer ≠ "" → jsParseInt q = some n → 1 ≤ n →
      (printLabels st printer q).2
        = PrintResult.printed (syncAll st.initialValues st.controls doc) printer n) := by
  constructor
  · intro hblock
    cases hl : st.label with
    | none =>
      unfold printLabels
      simp only [hl]
      exact ⟨by simp, by simp⟩
    | some doc =>
      unfold printLabels
      simp only [hl]
      by_cases hp : printer = ""
      · rw [if_pos hp]
        exact ⟨by simp, by simp⟩
      · rw [if_neg hp]
        rcases hblock with hp' | hq | ⟨n, hq, hn⟩
        · exact absurd hp' hp
        · simp only [hq]
          exact ⟨by simp, by simp⟩
        · simp only [hq]
          rw [if_pos hn]
          exact ⟨by simp, by simp⟩
  · intro doc n hl hp hq hn
    unfold printLabels
    simp only [hl, hq]
    rw [if_neg hp, if_neg (by omega : ¬ n < 1)]

theorem printLabels_validation_witness :
    (printLabels sampleState "DYMO LabelWriter 450" "0").1 = sampleState
    ∧ ∀ d p c, (printLabels sampleState "DYMO LabelWriter 450" "0").2
        ≠ PrintResult.printed d p c :=
  (printLabels_validation sampleState "DYMO LabelWriter 450" "0").1
    (Or.inr (Or.inr ⟨0, by decide, by decide⟩))

/-- C10: quantity validation blocks a string exactly when its `parseInt`
value is NaN or below 1; the strings "2.5" and "3abc" are therefore not
blocked, and the print proceeds with 2 and 3 copies — the integer value of
the leading numeric prefix of each string. -/
theorem printLabels_quantity_charact (st : AppState) (doc : Doc) (printer : String)
    (hl : st.label = some doc) (hp : printer ≠ "") :
    (∀ q, (printLabels st printer q).2 = PrintResult.badQuantity ↔
      (jsParseInt q = none ∨ ∃ n, jsParseInt q = some n ∧ n < 1))
    ∧ jsParseInt "2.5" = some 2
    ∧ jsParseInt "3abc" = some 3
    ∧ (printLabels st printer "2.5").2
        = PrintResult.printed (syncAll st.initialValues st.controls doc) printer 2
    ∧ (printLabels st printer "3abc").2
        = PrintResult.printed (syncAll st.initialValues st.controls doc) printer 3 := by
  refine ⟨fun q => ?_, by decide, by decide, ?_, ?_⟩
  · unfold printLabels
    simp only [hl]
    rw [if_neg hp]
    split
    next hq => simp [hq]
    next n hq =>
      split
      next hn => simp [hq, hn]
      next hn => simp [hq, hn]
  · unfold printLabels
    simp only [hl]
    rw [if_neg hp]
    have h25 : jsParseInt "2.5" = some 2 := by decide
    simp only [h25]
    rw [if_neg (by omega : ¬ (2 : Int) < 1)]
  · unfold printLabels
    simp only [hl]
    rw [if_neg hp]
    have h3a : jsParseInt "3abc" = some 3 := by decide
    simp only [h3a]
    rw [if_neg (by omega : ¬ (3 : Int) < 1)]

theorem printLabels_quantity_charact_witness :
    (printLabels sampleState "DYMO LabelWriter 450" "2.5").2
      = PrintResult.printed
          (syncAll sampleState.initialValues sampleState.controls sampleDoc)
          "DYMO LabelWriter 450" 2 :=
  (printLabels_quantity_charact sampleState sampleDoc "DYMO LabelWriter 450"
    rfl (by decide)).2.2.2.1

/-- A state whose form is still bound to a first template: its one field
"Photo" has a textarea control holding the stale text "OLD". -/
def firstTemplateState : AppState :=
  { label := some ⟨[("Photo", "FIRST")]⟩
    labelXml := some "<first/>"
    objectNames := ["Photo"]
    objectTypes := fun _ => none
    initialValues := fun _ => none
    controls := [Control.textarea "Photo" "OLD"]
    formVisible := true
    noFieldsVisible := false
    previewVisible := true
    printVisible := true
    fileErrorVisible := false
    previewSrc := ""
    pendingDebounce := false }

/-- C7 counterexample: load a second template whose collaborator name list is
empty while its document still answers the text accessor for "Photo" (fresh
value "NEW"). In the empty-name-list branch `generateForm` is never called,
so the first template's control survives the load, and the preview pass that
`loadLabel` itself triggers writes the stale "OLD" into the brand-new
Template Document. -/
theorem loadLabel_stale_binding_cex :
    ((loadLabel (fun _ => some (⟨[("Photo", "NEW")]⟩, []))
        (fun _ => none) (fun _ => Except.ok "png") "<second/>" firstTemplateState).controls
      = [Control.textarea "Photo" "OLD"])
    ∧ ((loadLabel (fun _ => some (⟨[("Photo", "NEW")]⟩, []))
        (fun _ => none) (fun _ => Except.ok "png") "<second/>" firstTemplateState).label
      = some ⟨[("Photo", "OLD")]⟩) := by
  constructor
  · decide
  · decide

/-- C7 (amended): whenever the second template reports a NON-EMPTY field-name
list, `loadLabel` rebuilds the control set from that template alone — the
prior bindings are discarded wholesale, and every control of the new state is
bound to an editable name of the new template, so no control of the first
template can reach the new document in a later synchronization pass. (With an
empty name list the old form is kept; see the counterexample.) -/
theorem loadLabel_rebinds (openLabelXml : String → Option (Doc × List String))
    (parse : String → Option XNode) (render : Doc → Except String String)
    (xml : String) (st : AppState) (doc : Doc) (names : List String)
    (hopen : openLabelXml xml = some (doc, names)) (hne : names ≠ []) :
    ((loadLabel openLabelXml parse render xml st).controls
      = generateForm (parseObjectTypes parse xml) doc names)
    ∧ ∀ c ∈ (loadLabel openLabelXml parse render xml st).controls,
        c.name ∈ editableNames names := by
  have hcontrols : (loadLabel openLabelXml parse render xml st).controls
      = generateForm (parseObjectTypes parse xml) doc names := by
    unfold loadLabel
    simp only [hopen]
    rw [if_neg (by simpa using hne)]
    rw [updatePreview_controls]
  refine ⟨hcontrols, ?_⟩
  intro c hc
  rw [hcontrols] at hc
  have := List.mem_map_of_mem Control.name hc
  rwa [generateForm_names_eq] at this

theorem loadLabel_rebinds_witness :
    (loadLabel (fun _ => some (⟨[("B", "x")]⟩, ["B"]))
        (fun _ => none) (fun _ => Except.ok "png") "<x/>" firstTemplateState).controls
      = generateForm (parseObjectTypes (fun _ => none) "<x/>") ⟨[("B", "x")]⟩ ["B"] :=
  (loadLabel_rebinds (fun _ => some (⟨[("B", "x")]⟩, ["B"])) (fun _ => none)
      (fun _ => Except.ok "png") "<x/>" firstTemplateState ⟨[("B", "x")]⟩ ["B"]
      rfl (by decide)).1

/-- A state with a loaded template whose image field has a kind entry, a
snapshot and a generated control. -/
def loadedImageState : AppState :=
  { label := some ⟨[("Photo", "IMGDATA")]⟩
    labelXml := some "<first/>"
    objectNames := ["Photo"]
    objectTypes := fun k => if k = "Photo" then some "ImageObject" else none
    initialValues := fun k => if k = "Photo" then some "IMGDATA" else none
    controls := [Control.checkbox "Photo" true]
    formVisible := true
    noFieldsVisible := false
    previewVisible := true
    printVisible := true
    fileErrorVisible := false
    previewSrc := "data:image/png;base64,AAA"
    pendingDebounce := false }

/-- C9 counterexample: after `clearForm` the field kind map, the
original-value snapshots and the generated form controls of the previously
loaded template are all still live — the clear action does not discard every
part of the template UI state. -/
theorem clearForm_retains_state_cex :
    ¬ ((clearForm loadedImageState).controls = []
        ∧ (clearForm loadedImageState).objectTypes "Photo" = none
        ∧ (clearForm loadedImageState).initialValues "Photo" = none) := by
  decide

/-- C9 (amended): `clearForm` discards the document handle, the raw markup
and the field-name list, hides every card, hides the file error and empties
the preview; the kind map, the original-value snapshots and the generated
controls are NOT discarded, but the cleared state is inert: `updatePreview`
returns it unchanged and `printLabels` blocks with the no-label alert before
any state change or collaborator call. -/
theorem clearForm_spec (st : AppState) (render : Doc → Except String String) (p q : String) :
    (clearForm st).label = none
    ∧ (clearForm st).labelXml = none
    ∧ (clearForm st).objectNames = []
    ∧ (clearForm st).formVisible = false
    ∧ (clearForm st).noFieldsVisible = false
    ∧ (clearForm st).previewVisible = false
    ∧ (clearForm st).printVisible = false
    ∧ (clearForm st).fileErrorVisible = false
    ∧ (clearForm st).previewSrc = ""
    ∧ (clearForm st).objectTypes = st.objectTypes
    ∧ (clearForm st).initialValues = st.initialValues
    ∧ (clearForm st).controls = st.controls
    ∧ updatePreview render (clearForm st) = clearForm st
    ∧ (printLabels (clearForm st) p q).1 = clearForm st
    ∧ (printLabels (clearForm st) p q).2 = PrintResult.noLabel := by
  refine ⟨rfl, rfl, rfl, rfl, rfl, rfl, rfl, rfl, rfl, rfl, rfl, rfl, rfl, rfl, rfl⟩

theorem generateForm_control_shape_witness :
    (Control.checkbox "Photo" true).isToggle = true ↔
      ((fun k => if k = ("Photo" : String) then some "ImageObject" else none)
          (Control.checkbox "Photo" true).name = some "ImageObject"
        ∨ (fun k => if k = ("Photo" : String) then some "ImageObject" else none)
          (Control.checkbox "Photo" true).name = some "GraphicObject") :=
  (generateForm_control_shape (fun k => if k = ("Photo" : String) then some "ImageObject" else none)
      ⟨[("Photo", "X")]⟩ ["Photo"]).2 (Control.checkbox "Photo" true) (by decide)
